import Mathlib

/-!
Shallow embedding of the kanban-board backend (`src/backend/server.py`).

The backend is a FastAPI application over MongoDB.  We embed it in two layers:

* a CRUD layer: the Mongo collections `db.boards` and `db.tasks` become lists
  of typed records (every document the code stores has a fixed schema, namely
  `Board.dict()` / `Task.dict()`), `find_one` / `update_one` / `delete_one`
  act on the first match and `delete_many` on all matches, and each route
  handler becomes a function from the store (plus the data the runtime
  supplies: the parsed request body, the generated uuid, the current clock
  reading) to an `Except` of HTTP error or result.  Timestamps are opaque to
  this layer (the code only ever creates them with `datetime.now(timezone.utc)`
  and stores them), so they are abstracted as naturals ordered by instant.

* a serialization layer for `prepare_for_mongo` / `parse_from_mongo`: Python
  dicts of mixed string/datetime/None values become association lists of a
  `Value` type, and the `datetime.isoformat` / `datetime.fromisoformat`
  round-trip is modelled down to the character level.

Pydantic request parsing is embedded explicitly: a JSON body field can be
absent, explicitly `null`, or carry a value (`FieldVal`), and each request
model's parse function reproduces pydantic v1 semantics for the declarations
in the source (`name: str`, `description: Optional[str] = ""`,
`priority: TaskPriority = TaskPriority.medium`, ...).
-/

namespace Kanban

/-- Python `class TaskPriority(str, Enum)` — values low/medium/high. -/
inductive TaskPriority where
  | low
  | medium
  | high
deriving DecidableEq, Repr

/-- Python `class TaskColumn(str, Enum)` — values todo/in_progress/done. -/
inductive TaskColumn where
  | todo
  | in_progress
  | done
deriving DecidableEq, Repr

/-- Errors surfaced by the route handlers: `HTTPException(404, detail)` for
missing resources, pydantic request-validation failure (HTTP 422), and a crash
(an exception escaping the handler, e.g. `Board(**None)` after a lost
re-fetch). -/
inductive ApiError where
  | notFound (detail : String)
  | validationError
  | internalError
deriving DecidableEq, Repr

/-- A field of a JSON request body: absent from the object, explicitly
`null`, or present with a value. -/
inductive FieldVal (α : Type) where
  | absent
  | null
  | val (a : α)
deriving DecidableEq, Repr

/-- pydantic parsing of a field declared `f: Optional[T] = None`: an absent
field takes the default `None`, an explicit `null` is a legal value for
`Optional`, a value is kept. -/
def FieldVal.optNone {α : Type} : FieldVal α → Option α
  | .absent => none
  | .null => none
  | .val a => some a

/-- pydantic parsing of a field declared `f: Optional[T] = ""` (the
`description` fields): absent takes the default `""` (here lifted by `dflt`),
`null` is legal and stored as `None`, a value is kept. -/
def FieldVal.optDefault {α : Type} (dflt : α) : FieldVal α → Option α
  | .absent => some dflt
  | .null => none
  | .val a => some a

/-- Stored board document (the schema of `Board.dict()`): `id`, `name`,
`description` (Optional), `created_at`, `updated_at`. -/
structure BoardRec where
  id : String
  name : String
  description : Option String
  created_at : Nat
  updated_at : Nat
deriving DecidableEq, Repr

/-- Stored task document (the schema of `Task.dict()`). -/
structure TaskRec where
  id : String
  board_id : String
  title : String
  description : Option String
  priority : TaskPriority
  column : TaskColumn
  due_date : Option Nat
  created_at : Nat
  updated_at : Nat
deriving DecidableEq, Repr

/-- Raw JSON body of `POST /api/boards` (`class BoardCreate`). -/
structure BoardCreateRaw where
  name : FieldVal String
  description : FieldVal String
deriving DecidableEq, Repr

/-- Parsed `BoardCreate`: `name: str` (required), `description: Optional[str] = ""`. -/
structure BoardCreate where
  name : String
  description : Option String
deriving DecidableEq, Repr

/-- pydantic validation of `BoardCreate`: `name` is required and not
`Optional`, so an absent or `null` name is a validation error; any string —
including the empty string — is accepted. -/
def BoardCreate.parse (r : BoardCreateRaw) : Except ApiError BoardCreate :=
  match r.name with
  | .absent => .error .validationError
  | .null => .error .validationError
  | .val n => .ok { name := n, description := r.description.optDefault ("") }

/-- Raw JSON body of `PUT /api/boards/{board_id}` (`class BoardUpdate`). -/
structure BoardUpdateRaw where
  name : FieldVal String
  description : FieldVal String
deriving DecidableEq, Repr

/-- Parsed `BoardUpdate`: both fields `Optional[...] = None`; `.dict()`
carries `None` for a field that was absent or `null`. -/
structure BoardUpdate where
  name : Option String
  description : Option String
deriving DecidableEq, Repr

def BoardUpdate.parse (r : BoardUpdateRaw) : BoardUpdate :=
  { name := r.name.optNone, description := r.description.optNone }

/-- Raw JSON body of `POST /api/boards/{board_id}/tasks` (`class TaskCreate`). -/
structure TaskCreateRaw where
  title : FieldVal String
  description : FieldVal String
  priority : FieldVal TaskPriority
  due_date : FieldVal Nat
deriving DecidableEq, Repr

/-- Parsed `TaskCreate`: `title: str` required; `description: Optional[str] = ""`;
`priority: TaskPriority = TaskPriority.medium` (not Optional, so `null` is
rejected); `due_date: Optional[datetime] = None`. -/
structure TaskCreate where
  title : String
  description : Option String
  priority : TaskPriority
  due_date : Option Nat
deriving DecidableEq, Repr

def TaskCreate.parse (r : TaskCreateRaw) : Except ApiError TaskCreate :=
  match r.title with
  | .absent => .error .validationError
  | .null => .error .validationError
  | .val t =>
    match r.priority with
    | .null => .error .validationError
    | .absent => .ok { title := t, description := r.description.optDefault (""),
                       priority := .medium, due_date := r.due_date.optNone }
    | .val p => .ok { title := t, description := r.description.optDefault (""),
                      priority := p, due_date := r.due_date.optNone }

/-- Raw JSON body of `PUT /api/tasks/{task_id}` (`class TaskUpdate`): all five
fields are `Optional[...] = None`; there is no `id` and no `board_id` field. -/
structure TaskUpdateRaw where
  title : FieldVal String
  description : FieldVal String
  priority : FieldVal TaskPriority
  column : FieldVal TaskColumn
  due_date : FieldVal Nat
deriving DecidableEq, Repr

structure TaskUpdate where
  title : Option String
  description : Option String
  priority : Option TaskPriority
  column : Option TaskColumn
  due_date : Option Nat
deriving DecidableEq, Repr

def TaskUpdate.parse (r : TaskUpdateRaw) : TaskUpdate :=
  { title := r.title.optNone, description := r.description.optNone,
    priority := r.priority.optNone, column := r.column.optNone,
    due_date := r.due_date.optNone }

/-- The persistent store: the two Mongo collections, in insertion order. -/
structure DB where
  boards : List BoardRec
  tasks : List TaskRec
deriving DecidableEq, Repr

/-- Mongo `delete_one(filter)`: removes the first matching document. -/
def removeFirst {α : Type} (p : α → Bool) : List α → List α
  | [] => []
  | x :: xs => if p x then xs else x :: removeFirst p xs

/-- Mongo `update_one(filter, {"$set": ...})`: applies the update to the
first matching document. -/
def updateFirst {α : Type} (p : α → Bool) (g : α → α) : List α → List α
  | [] => []
  | x :: xs => if p x then g x :: xs else x :: updateFirst p g xs

/-- Semantics of `update_data = {k: v for k, v in board_update.dict().items() if v is not None}`
followed by `update_data["updated_at"] = datetime.now(...)` and
`update_one({"id": ...}, {"$set": update_data})`, applied to one document:
only the supplied (non-`None`) fields are written, plus `updated_at`. -/
def boardApplySet (u : BoardUpdate) (now : Nat) (b : BoardRec) : BoardRec :=
  { b with
    name := match u.name with | some n => n | none => b.name
    description := match u.description with | some d => some d | none => b.description
    updated_at := now }

/-- The `$set` document of `update_task`, applied to one task document. -/
def taskApplySet (u : TaskUpdate) (now : Nat) (t : TaskRec) : TaskRec :=
  { t with
    title := match u.title with | some s => s | none => t.title
    description := match u.description with | some d => some d | none => t.description
    priority := match u.priority with | some p => p | none => t.priority
    column := match u.column with | some c => c | none => t.column
    due_date := match u.due_date with | some d => some d | none => t.due_date
    updated_at := now }

/-- The `$set` document of `move_task`: `{"column": ..., "updated_at": ...}`. -/
def taskApplyMove (col : TaskColumn) (now : Nat) (t : TaskRec) : TaskRec :=
  { t with column := col, updated_at := now }

/-- Handler for `GET /api/boards/{board_id}`. -/
def get_board (db : DB) (board_id : String) : Except ApiError BoardRec :=
  match db.boards.find? (fun b => b.id == board_id) with
  | none => .error (.notFound ("Board not found"))
  | some b => .ok b

/-- Handler for `POST /api/boards`: validate the body, build the `Board` with a generated
id and fresh timestamps, `insert_one`. -/
def create_board (db : DB) (raw : BoardCreateRaw) (newId : String) (now : Nat) :
    Except ApiError (BoardRec × DB) :=
  match BoardCreate.parse raw with
  | .error e => .error e
  | .ok bc =>
    let b : BoardRec :=
      { id := newId, name := bc.name, description := bc.description,
        created_at := now, updated_at := now }
    .ok (b, { db with boards := db.boards ++ [b] })

/-- Handler for `PUT /api/boards/{board_id}`: 404 if absent, else `$set` the supplied
fields plus `updated_at`, re-fetch and return. -/
def update_board (db : DB) (board_id : String) (raw : BoardUpdateRaw) (now : Nat) :
    Except ApiError (BoardRec × DB) :=
  match db.boards.find? (fun b => b.id == board_id) with
  | none => .error (.notFound ("Board not found"))
  | some _ =>
    let u := BoardUpdate.parse raw
    let boards' := updateFirst (fun b => b.id == board_id) (boardApplySet u now) db.boards
    match boards'.find? (fun b => b.id == board_id) with
    | none => .error .internalError
    | some b => .ok (b, { db with boards := boards' })

/-- Handler for `DELETE /api/boards/{board_id}`: 404 if absent, else
`tasks.delete_many({"board_id": board_id})` then
`boards.delete_one({"id": board_id})`. -/
def delete_board (db : DB) (board_id : String) : Except ApiError DB :=
  match db.boards.find? (fun b => b.id == board_id) with
  | none => .error (.notFound ("Board not found"))
  | some _ =>
    .ok { boards := removeFirst (fun b => b.id == board_id) db.boards,
          tasks := db.tasks.filter (fun t => !(t.board_id == board_id)) }

/-- The sequence of store states `delete_board` passes through, one entry per
point between its `await`ed persistence calls: initial state, state after
`delete_many` on the tasks, state after `delete_one` on the board.  (On the
404 path no persistence write happens.) -/
def delete_board_trace (db : DB) (board_id : String) : List DB :=
  match db.boards.find? (fun b => b.id == board_id) with
  | none => [db]
  | some _ =>
    [db,
     { db with tasks := db.tasks.filter (fun t => !(t.board_id == board_id)) },
     { boards := removeFirst (fun b => b.id == board_id) db.boards,
       tasks := db.tasks.filter (fun t => !(t.board_id == board_id)) }]

/-- Handler for `GET /api/boards/{board_id}/tasks?priority=&column=`: 404 if the board is
absent; else find tasks matching `{"board_id": board_id}` plus `"priority"`
(when supplied — every `TaskPriority` value is a non-empty string, hence
truthy) plus `"column"` (likewise). -/
def get_board_tasks (db : DB) (board_id : String)
    (priority : Option TaskPriority) (column : Option TaskColumn) :
    Except ApiError (List TaskRec) :=
  match db.boards.find? (fun b => b.id == board_id) with
  | none => .error (.notFound ("Board not found"))
  | some _ =>
    .ok (db.tasks.filter (fun t =>
      t.board_id == board_id
      && (match priority with | none => true | some p => t.priority == p)
      && (match column with | none => true | some c => t.column == c)))

/-- Handler for `POST /api/boards/{board_id}/tasks`: 404 if the board is absent; else
validate, build the `Task` with defaults (`column` defaults to todo),
`insert_one`. -/
def create_task (db : DB) (board_id : String) (raw : TaskCreateRaw)
    (newId : String) (now : Nat) : Except ApiError (TaskRec × DB) :=
  match db.boards.find? (fun b => b.id == board_id) with
  | none => .error (.notFound ("Board not found"))
  | some _ =>
    match TaskCreate.parse raw with
    | .error e => .error e
    | .ok tc =>
      let t : TaskRec :=
        { id := newId, board_id := board_id, title := tc.title,
          description := tc.description, priority := tc.priority,
          column := .todo, due_date := tc.due_date,
          created_at := now, updated_at := now }
      .ok (t, { db with tasks := db.tasks ++ [t] })

/-- Handler for `GET /api/tasks/{task_id}`. -/
def get_task (db : DB) (task_id : String) : Except ApiError TaskRec :=
  match db.tasks.find? (fun t => t.id == task_id) with
  | none => .error (.notFound ("Task not found"))
  | some t => .ok t

/-- Handler for `PUT /api/tasks/{task_id}`: 404 if absent, else `$set` the supplied fields
plus `updated_at`, re-fetch and return. -/
def update_task (db : DB) (task_id : String) (raw : TaskUpdateRaw) (now : Nat) :
    Except ApiError (TaskRec × DB) :=
  match db.tasks.find? (fun t => t.id == task_id) with
  | none => .error (.notFound ("Task not found"))
  | some _ =>
    let u := TaskUpdate.parse raw
    let tasks' := updateFirst (fun t => t.id == task_id) (taskApplySet u now) db.tasks
    match tasks'.find? (fun t => t.id == task_id) with
    | none => .error .internalError
    | some t => .ok (t, { db with tasks := tasks' })

/-- Handler for `PATCH /api/tasks/{task_id}/move`: 404 if absent, else `$set` the column
and `updated_at` unconditionally, re-fetch and return. -/
def move_task (db : DB) (task_id : String) (col : TaskColumn) (now : Nat) :
    Except ApiError (TaskRec × DB) :=
  match db.tasks.find? (fun t => t.id == task_id) with
  | none => .error (.notFound ("Task not found"))
  | some _ =>
    let tasks' := updateFirst (fun t => t.id == task_id) (taskApplyMove col now) db.tasks
    match tasks'.find? (fun t => t.id == task_id) with
    | none => .error .internalError
    | some t => .ok (t, { db with tasks := tasks' })

/-- Handler for `DELETE /api/tasks/{task_id}`. -/
def delete_task (db : DB) (task_id : String) : Except ApiError DB :=
  match db.tasks.find? (fun t => t.id == task_id) with
  | none => .error (.notFound ("Task not found"))
  | some _ =>
    .ok { db with tasks := removeFirst (fun t => t.id == task_id) db.tasks }

/-!
### Serialization layer

`prepare_for_mongo` turns every `datetime` value of a dict into its
`isoformat()` string; `parse_from_mongo` turns the string values under the
keys `created_at`, `updated_at`, `due_date` back into `datetime` via
`datetime.fromisoformat`, keeping the string when that raises `ValueError`.

A Python `datetime` is its calendar fields plus an optional fixed UTC offset
(`tzinfo`); the code only ever builds offsets through `timezone`, whose
offsets we model at whole-minute precision.  `isoformat()` emits
`YYYY-MM-DDTHH:MM:SS[.ffffff][±HH:MM]` (microseconds omitted exactly when 0,
offset present exactly when the datetime is aware); `fromisoformat` is
modelled on that grammar, with the range checks the `datetime`/`timezone`
constructors perform (out-of-range fields raise, i.e. return `none`).
-/

/-- A Python `datetime`: calendar fields plus optional UTC offset in minutes
(`none` = naive). -/
structure PyDateTime where
  year : Nat
  month : Nat
  day : Nat
  hour : Nat
  minute : Nat
  second : Nat
  microsecond : Nat
  tzMinutes : Option Int
deriving DecidableEq, Repr

/-- Gregorian leap year, as `calendar.isleap` / `datetime` use it. -/
def isLeap (y : Nat) : Bool :=
  y % 4 == 0 && (y % 100 != 0 || y % 400 == 0)

def daysInMonth (y m : Nat) : Nat :=
  if m == 2 then (if isLeap y then 29 else 28)
  else if m == 4 || m == 6 || m == 9 || m == 11 then 30
  else 31

/-- The `datetime` constructor's date range checks (MINYEAR/MAXYEAR etc.). -/
def ValidYMD (y m d : Nat) : Prop :=
  1 ≤ y ∧ y ≤ 9999 ∧ 1 ≤ m ∧ m ≤ 12 ∧ 1 ≤ d ∧ d ≤ daysInMonth y m

instance (y m d : Nat) : Decidable (ValidYMD y m d) := by
  unfold ValidYMD; infer_instance

/-- The `datetime` constructor's time range checks. -/
def ValidHMSU (h mi s us : Nat) : Prop :=
  h ≤ 23 ∧ mi ≤ 59 ∧ s ≤ 59 ∧ us ≤ 999999

instance (h mi s us : Nat) : Decidable (ValidHMSU h mi s us) := by
  unfold ValidHMSU; infer_instance

/-- The `timezone` constructor requires the offset strictly between -24h and
+24h; at minute precision that is `|off| ≤ 1439`. -/
def TzOk : Option Int → Prop
  | none => True
  | some off => off.natAbs ≤ 1439

instance : (o : Option Int) → Decidable (TzOk o)
  | none => .isTrue trivial
  | some off => inferInstanceAs (Decidable (off.natAbs ≤ 1439))

/-- A `PyDateTime` that the `datetime`/`timezone` constructors accept. -/
def PyDateTime.Valid (dt : PyDateTime) : Prop :=
  ValidYMD dt.year dt.month dt.day ∧
  ValidHMSU dt.hour dt.minute dt.second dt.microsecond ∧
  TzOk dt.tzMinutes

instance (dt : PyDateTime) : Decidable dt.Valid := by
  unfold PyDateTime.Valid; infer_instance

/-- Zero-padded fixed-width decimal digits (most significant first), as the
`%04d`-style formatting in `isoformat` produces: `padDigits w n` are the `w`
digits of `n` for `n < 10^w`. -/
def padDigits : Nat → Nat → List Char
  | 0, _ => []
  | w + 1, n => Char.ofNat (48 + n / 10 ^ w) :: padDigits w (n % 10 ^ w)

/-- The `.ffffff` part of `isoformat`: omitted exactly when microsecond is 0. -/
def microChars (us : Nat) : List Char :=
  if us == 0 then [] else '.' :: padDigits 6 us

/-- The `±HH:MM` part of `isoformat`: present exactly when the datetime is
aware; `timezone` prints `+` for a zero offset. -/
def tzChars : Option Int → List Char
  | none => []
  | some off =>
    (if off < 0 then '-' else '+') ::
      (padDigits 2 (off.natAbs / 60) ++ ':' :: padDigits 2 (off.natAbs % 60))

/-- The `HH:MM:SS[.ffffff][±HH:MM]` part of `isoformat`. -/
def timeChars (h mi s us : Nat) (tz : Option Int) : List Char :=
  padDigits 2 h ++ ':' :: (padDigits 2 mi ++ ':' :: (padDigits 2 s ++ (microChars us ++ tzChars tz)))

/-- The `YYYY-MM-DD` part of `isoformat`. -/
def dateChars (y mo d : Nat) : List Char :=
  padDigits 4 y ++ '-' :: (padDigits 2 mo ++ '-' :: padDigits 2 d)

/-- Python `datetime.isoformat()`: `YYYY-MM-DDTHH:MM:SS[.ffffff][±HH:MM]`. -/
def PyDateTime.isoformat (dt : PyDateTime) : String :=
  String.mk (dateChars dt.year dt.month dt.day ++
    'T' :: timeChars dt.hour dt.minute dt.second dt.microsecond dt.tzMinutes)

/-- One ASCII digit, else failure. -/
def parseDigit? (c : Char) : Option Nat :=
  if '0' ≤ c && c ≤ '9' then some (c.toNat - 48) else none

/-- Exactly `w` digits folded onto `acc`, returning the value and the rest. -/
def parseFixed : Nat → Nat → List Char → Option (Nat × List Char)
  | 0, acc, cs => some (acc, cs)
  | _ + 1, _, [] => none
  | w + 1, acc, c :: cs =>
    match parseDigit? c with
    | some d => parseFixed w (acc * 10 + d) cs
    | none => none

/-- Consume one expected character. -/
def expectChar (c : Char) : List Char → Option (List Char)
  | [] => none
  | x :: xs => if x == c then some xs else none

/-- Parse the optional trailing `±HH:MM` offset; the `timezone` constructor's
range check (< 24h) makes an over-large offset a `ValueError`. -/
def parseTzChars : List Char → Option (Option Int)
  | [] => some none
  | sign :: rest =>
    if sign == '+' || sign == '-' then
      match parseFixed 2 0 rest with
      | none => none
      | some (h, rest1) =>
        match expectChar ':' rest1 with
        | none => none
        | some rest2 =>
          match parseFixed 2 0 rest2 with
          | none => none
          | some (mi, rest3) =>
            match rest3 with
            | [] =>
              if h * 60 + mi ≤ 1439 then
                some (some (if sign == '-' then -((h * 60 + mi : Nat) : Int)
                            else ((h * 60 + mi : Nat) : Int)))
              else none
            | _ :: _ => none
    else none

/-- Parse the optional `.ffffff` followed by the optional offset. -/
def parseMicroTz : List Char → Option (Nat × Option Int)
  | [] => some (0, none)
  | c :: rest =>
    if c == '.' then
      match parseFixed 6 0 rest with
      | none => none
      | some (us, rest2) =>
        match parseTzChars rest2 with
        | none => none
        | some tz => some (us, tz)
    else
      match parseTzChars (c :: rest) with
      | none => none
      | some tz => some (0, tz)

/-- Parse `HH:MM:SS[.ffffff][±HH:MM]`. -/
def parseTimeChars (cs : List Char) : Option (Nat × Nat × Nat × Nat × Option Int) :=
  match parseFixed 2 0 cs with
  | none => none
  | some (h, r1) =>
    match expectChar ':' r1 with
    | none => none
    | some r2 =>
      match parseFixed 2 0 r2 with
      | none => none
      | some (mi, r3) =>
        match expectChar ':' r3 with
        | none => none
        | some r4 =>
          match parseFixed 2 0 r4 with
          | none => none
          | some (s, r5) =>
            match parseMicroTz r5 with
            | none => none
            | some (us, tz) => some (h, mi, s, us, tz)

/-- Python `datetime.fromisoformat` on the grammar `isoformat` emits:
`YYYY-MM-DD` optionally followed by a separator character and
`HH:MM:SS[.ffffff][±HH:MM]`; the constructor range checks apply; `none`
models `ValueError`. -/
def fromisoChars (cs : List Char) : Option PyDateTime :=
  match parseFixed 4 0 cs with
  | none => none
  | some (y, r1) =>
    match expectChar '-' r1 with
    | none => none
    | some r2 =>
      match parseFixed 2 0 r2 with
      | none => none
      | some (mo, r3) =>
        match expectChar '-' r3 with
        | none => none
        | some r4 =>
          match parseFixed 2 0 r4 with
          | none => none
          | some (d, rest) =>
            match rest with
            | [] => if ValidYMD y mo d then some ⟨y, mo, d, 0, 0, 0, 0, none⟩ else none
            | _sep :: timecs =>
              match parseTimeChars timecs with
              | none => none
              | some (h, mi, s, us, tz) =>
                if ValidYMD y mo d ∧ ValidHMSU h mi s us then
                  some ⟨y, mo, d, h, mi, s, us, tz⟩
                else none

def fromisoformat (s : String) : Option PyDateTime :=
  fromisoChars s.data

/-- A value of a document dict: the strings (ids, titles, enum tokens — the
enums are `str` subclasses), the datetimes, and `None` (an unset
`due_date`/`description`). -/
inductive Value where
  | str (s : String)
  | dt (d : PyDateTime)
  | null
deriving DecidableEq, Repr

/-- A Python dict, in insertion order. -/
abbrev Doc : Type := List (String × Value)

/-- The body of `prepare_for_mongo`'s loop on one dict entry: a `datetime`
value becomes its ISO string; other values pass through. -/
def prepareEntry (kv : String × Value) : String × Value :=
  (kv.1, match kv.2 with
    | .dt d => .str d.isoformat
    | v => v)

/-- Function `prepare_for_mongo` of the source. -/
def prepare_for_mongo (doc : Doc) : Doc :=
  doc.map prepareEntry

/-- The keys `parse_from_mongo` looks at. -/
def mongoDatetimeKeys : List String := ["created_at", "updated_at", "due_date"]

/-- The body of `parse_from_mongo`'s loop on one dict entry: under the
datetime keys, a string value is fed to `fromisoformat`; on `ValueError`
(`none`) the string is kept. -/
def parseEntry (kv : String × Value) : String × Value :=
  (kv.1,
    if mongoDatetimeKeys.contains kv.1 then
      match kv.2 with
      | .str s =>
        (match fromisoformat s with
         | some d => .dt d
         | none => .str s)
      | v => v
    else kv.2)

/-- Function `parse_from_mongo` of the source. -/
def parse_from_mongo (doc : Doc) : Doc :=
  doc.map parseEntry

/-- An entry of a document dict on which the storage round-trip is the
identity: a datetime value sits under one of the keys `parse_from_mongo`
restores, is accepted by the `datetime`/`timezone` constructors, and is
timezone-aware; a string value does not sit under one of those keys.  (Every
`Board.dict()` / `Task.dict()` the code builds satisfies this: its datetimes
are exactly `created_at`/`updated_at`/`due_date`, and under those keys the
non-datetime values are `None`.) -/
def MongoRoundtripOK : String × Value → Prop
  | (k, .dt d) => mongoDatetimeKeys.contains k = true ∧ d.Valid ∧ d.tzMinutes.isSome = true
  | (k, .str _) => mongoDatetimeKeys.contains k = false
  | (_, .null) => True

instance : (kv : String × Value) → Decidable (MongoRoundtripOK kv)
  | (k, .dt d) =>
    inferInstanceAs (Decidable (mongoDatetimeKeys.contains k = true ∧
      d.Valid ∧ d.tzMinutes.isSome = true))
  | (k, .str _) => inferInstanceAs (Decidable (mongoDatetimeKeys.contains k = false))
  | (_, .null) => .isTrue trivial

/-!
### Lemmas: the character-level round-trip
-/

lemma parseDigit_ofNat (d : Nat) (hd : d ≤ 9) :
    parseDigit? (Char.ofNat (48 + d)) = some d := by
  interval_cases d <;> decide

lemma parseFixed_padDigits :
    ∀ (w n acc : Nat), n < 10 ^ w → ∀ rest : List Char,
      parseFixed w acc (padDigits w n ++ rest) = some (acc * 10 ^ w + n, rest) := by
  intro w
  induction w with
  | zero =>
    intro n acc hn rest
    have hn0 : n = 0 := by simpa using hn
    subst hn0
    simp [padDigits, parseFixed]
  | succ w ih =>
    intro n acc hn rest
    have h10 : 0 < 10 ^ w := Nat.pos_pow_of_pos w (by omega)
    have hd9 : n / 10 ^ w ≤ 9 := by
      have hlt : n < 10 ^ w * 10 := by
        calc n < 10 ^ (w + 1) := hn
        _ = 10 ^ w * 10 := pow_succ 10 w
      have := Nat.div_lt_of_lt_mul hlt
      omega
    simp only [padDigits, List.cons_append, parseFixed, parseDigit_ofNat _ hd9,
      List.append_eq]
    rw [ih (n % 10 ^ w) (acc * 10 + n / 10 ^ w) (Nat.mod_lt _ h10) rest]
    congr 2
    calc (acc * 10 + n / 10 ^ w) * 10 ^ w + n % 10 ^ w
        = acc * (10 ^ w * 10) + (10 ^ w * (n / 10 ^ w) + n % 10 ^ w) := by ring
      _ = acc * 10 ^ (w + 1) + n := by rw [Nat.div_add_mod, ← pow_succ]

lemma parseFixed_pad (w n : Nat) (hn : n < 10 ^ w) (rest : List Char) :
    parseFixed w 0 (padDigits w n ++ rest) = some (n, rest) := by
  simpa using parseFixed_padDigits w n 0 hn rest

lemma parseTz_tzChars (tz : Option Int) (h : TzOk tz) :
    parseTzChars (tzChars tz) = some tz := by
  cases tz with
  | none => rfl
  | some off =>
    have habs : off.natAbs ≤ 1439 := h
    have hh : off.natAbs / 60 < 10 ^ 2 := by omega
    have hm : off.natAbs % 60 < 10 ^ 2 := by omega
    have hsum : off.natAbs / 60 * 60 + off.natAbs % 60 = off.natAbs := by omega
    by_cases hneg : off < 0
    · simp only [tzChars, if_pos hneg, parseTzChars, List.cons_append]
      rw [show (padDigits 2 (off.natAbs % 60) : List Char)
            = padDigits 2 (off.natAbs % 60) ++ [] from (List.append_nil _).symm]
      rw [parseFixed_pad 2 _ hh]
      simp only [expectChar, beq_self_eq_true, if_true]
      rw [parseFixed_pad 2 _ hm]
      simp only [hsum, habs, beq_self_eq_true, Bool.or_true, Bool.true_or,
        eq_self_iff_true, if_true, Option.some.injEq]
      omega
    · simp only [tzChars, if_neg hneg, parseTzChars, List.cons_append]
      rw [show (padDigits 2 (off.natAbs % 60) : List Char)
            = padDigits 2 (off.natAbs % 60) ++ [] from (List.append_nil _).symm]
      rw [parseFixed_pad 2 _ hh]
      simp only [expectChar, beq_self_eq_true, if_true]
      rw [parseFixed_pad 2 _ hm]
      simp only [hsum, habs, beq_self_eq_true, Bool.or_true, Bool.true_or,
        eq_self_iff_true, if_true,
        if_neg (show ¬ ((('+' : Char) == '-') = true) by decide), Option.some.injEq]
      omega

lemma parseMicroTz_micro (us : Nat) (hus : us < 10 ^ 6) (tz : Option Int) (htz : TzOk tz) :
    parseMicroTz (microChars us ++ tzChars tz) = some (us, tz) := by
  by_cases h0 : us = 0
  · subst h0
    simp only [microChars, beq_self_eq_true, if_true, List.nil_append]
    cases tz with
    | none => rfl
    | some off =>
      have hp := parseTz_tzChars (some off) htz
      by_cases hneg : off < 0
      · simp only [tzChars, if_pos hneg] at hp ⊢
        rw [parseMicroTz, if_neg (by simp), hp]
      · simp only [tzChars, if_neg hneg] at hp ⊢
        rw [parseMicroTz, if_neg (by simp), hp]
  · simp only [microChars, if_neg (show ¬ ((us == 0) = true) by simpa using h0),
      List.cons_append]
    rw [parseMicroTz, if_pos (by simp)]
    simp only [parseFixed_pad 6 us hus, parseTz_tzChars tz htz]

lemma parseTime_timeChars (h mi s us : Nat) (tz : Option Int)
    (hh : h < 10 ^ 2) (hmi : mi < 10 ^ 2) (hs : s < 10 ^ 2) (hus : us < 10 ^ 6)
    (htz : TzOk tz) :
    parseTimeChars (timeChars h mi s us tz) = some (h, mi, s, us, tz) := by
  unfold timeChars parseTimeChars
  simp only [parseFixed_pad 2 h hh, parseFixed_pad 2 mi hmi, parseFixed_pad 2 s hs,
    expectChar, beq_self_eq_true, if_true, parseMicroTz_micro us hus tz htz]

lemma daysInMonth_le (y m : Nat) : daysInMonth y m ≤ 31 := by
  unfold daysInMonth
  split
  · split <;> omega
  · split <;> omega

/-- The core serialization round-trip: on any datetime the `datetime` and
`timezone` constructors accept, `fromisoformat` inverts `isoformat`
exactly. -/
theorem fromisoformat_isoformat (dt : PyDateTime) (hval : dt.Valid) :
    fromisoformat dt.isoformat = some dt := by
  obtain ⟨hymd, hhmsu, htz⟩ := hval
  obtain ⟨h1, h2, h3, h4, h5, h6⟩ := hymd
  obtain ⟨hhr, hmin, hsec, husec⟩ := hhmsu
  have hy : dt.year < 10 ^ 4 := by omega
  have hmo : dt.month < 10 ^ 2 := by omega
  have hd : dt.day < 10 ^ 2 := by
    have := daysInMonth_le dt.year dt.month
    omega
  have hh2 : dt.hour < 10 ^ 2 := by omega
  have hmi2 : dt.minute < 10 ^ 2 := by omega
  have hs2 : dt.second < 10 ^ 2 := by omega
  have hus6 : dt.microsecond < 10 ^ 6 := by omega
  show fromisoChars (dateChars dt.year dt.month dt.day ++
    'T' :: timeChars dt.hour dt.minute dt.second dt.microsecond dt.tzMinutes) = some dt
  unfold dateChars fromisoChars
  simp only [List.append_assoc, List.cons_append]
  simp only [parseFixed_pad 4 dt.year hy, parseFixed_pad 2 dt.month hmo,
    parseFixed_pad 2 dt.day hd, expectChar, beq_self_eq_true, if_true,
    parseTime_timeChars dt.hour dt.minute dt.second dt.microsecond dt.tzMinutes
      hh2 hmi2 hs2 hus6 htz,
    (show ValidYMD dt.year dt.month dt.day ∧
        ValidHMSU dt.hour dt.minute dt.second dt.microsecond from
      ⟨⟨h1, h2, h3, h4, h5, h6⟩, ⟨hhr, hmin, hsec, husec⟩⟩), and_self, if_true]

lemma parseEntry_prepareEntry (kv : String × Value) (h : MongoRoundtripOK kv) :
    parseEntry (prepareEntry kv) = kv := by
  obtain ⟨k, v⟩ := kv
  cases v with
  | str s =>
    have hc : mongoDatetimeKeys.contains k = false := h
    have hmem : k ∉ mongoDatetimeKeys := by simpa using hc
    simp [prepareEntry, parseEntry, hmem]
  | null =>
    by_cases hmem : k ∈ mongoDatetimeKeys <;>
      simp [prepareEntry, parseEntry, hmem]
  | dt d =>
    obtain ⟨hc, hv, _⟩ := h
    have hmem : k ∈ mongoDatetimeKeys := by simpa using hc
    simp [prepareEntry, parseEntry, hmem, fromisoformat_isoformat d hv]

/-!
### Lemmas: first-match collection operations under distinct keys
-/

lemma find?_key_of_nodup {α : Type} (f : α → String) (k : String) :
    ∀ l : List α, (l.map f).Nodup → ∀ x ∈ l, f x = k →
      l.find? (fun y => f y == k) = some x := by
  intro l
  induction l with
  | nil => intro _ x hx _; exact absurd hx (List.not_mem_nil x)
  | cons a t ih =>
    intro hnd x hx hk
    rw [List.map_cons, List.nodup_cons] at hnd
    rcases List.mem_cons.mp hx with h | h
    · subst h
      rw [List.find?_cons_of_pos _ (by simp [hk])]
    · have hfa : ¬ ((f a == k) = true) := by
        simp only [beq_iff_eq]
        intro heq
        exact hnd.1 (by rw [heq.trans hk.symm]; exact List.mem_map_of_mem f h)
      rw [List.find?_cons_of_neg (p := fun y => f y == k) _ hfa]
      exact ih hnd.2 x h hk

lemma key_unique_of_nodup {α : Type} (f : α → String) (l : List α)
    (hnd : (l.map f).Nodup) (x : α) (hx : x ∈ l) (y : α) (hy : y ∈ l)
    (hxy : f x = f y) : x = y := by
  have h1 := find?_key_of_nodup f (f x) l hnd x hx rfl
  have h2 := find?_key_of_nodup f (f x) l hnd y hy hxy.symm
  rw [h1] at h2
  exact Option.some.inj h2

lemma removeFirst_key_ne {α : Type} (f : α → String) (k : String) :
    ∀ l : List α, (l.map f).Nodup →
      ∀ y ∈ removeFirst (fun z => f z == k) l, f y ≠ k := by
  intro l
  induction l with
  | nil => intro _ y hy; simp [removeFirst] at hy
  | cons a t ih =>
    intro hnd y hy
    rw [List.map_cons, List.nodup_cons] at hnd
    by_cases ha : (f a == k) = true
    · rw [removeFirst, if_pos ha] at hy
      intro hyk
      have hfa : f a = k := by simpa using ha
      exact hnd.1 (by rw [hfa.trans hyk.symm]; exact List.mem_map_of_mem f hy)
    · rw [removeFirst, if_neg ha] at hy
      rcases List.mem_cons.mp hy with h | h
      · subst h; simpa using ha
      · exact ih hnd.2 y h

lemma find?_updateFirst {α : Type} (f : α → String) (g : α → α) (k : String)
    (hg : ∀ z, f (g z) = f z) :
    ∀ l : List α, (l.map f).Nodup → ∀ x ∈ l, f x = k →
      (updateFirst (fun z => f z == k) g l).find? (fun z => f z == k) = some (g x) := by
  intro l
  induction l with
  | nil => intro _ x hx _; exact absurd hx (List.not_mem_nil x)
  | cons a t ih =>
    intro hnd x hx hk
    rw [List.map_cons, List.nodup_cons] at hnd
    by_cases ha : (f a == k) = true
    · have hfa : f a = k := by simpa using ha
      have hxa : x = a := by
        rcases List.mem_cons.mp hx with h | h
        · exact h
        · exact absurd (by rw [hfa.trans hk.symm]; exact List.mem_map_of_mem f h) hnd.1
      subst hxa
      rw [updateFirst, if_pos ha]
      rw [List.find?_cons_of_pos _ (by simp [hg x, hfa])]
    · have hxt : x ∈ t := by
        rcases List.mem_cons.mp hx with h | h
        · exact absurd hk (by subst h; simpa using ha)
        · exact h
      rw [updateFirst, if_neg ha]
      rw [List.find?_cons_of_neg (p := fun z => f z == k) _ ha]
      exact ih hnd.2 x hxt hk

lemma updateFirst_map_key {α β : Type} (p : α → Bool) (g : α → α) (f : α → β)
    (hg : ∀ z, f (g z) = f z) :
    ∀ l : List α, (updateFirst p g l).map f = l.map f := by
  intro l
  induction l with
  | nil => rfl
  | cons a t ih =>
    by_cases ha : p a = true
    · rw [updateFirst, if_pos ha, List.map_cons, List.map_cons, hg a]
    · rw [updateFirst, if_neg ha, List.map_cons, List.map_cons, ih]

lemma mem_updateFirst {α : Type} (p : α → Bool) (g : α → α) :
    ∀ l : List α, ∀ y ∈ updateFirst p g l,
      y ∈ l ∨ ∃ x, x ∈ l ∧ p x = true ∧ y = g x := by
  intro l
  induction l with
  | nil => intro y hy; simp [updateFirst] at hy
  | cons a t ih =>
    intro y hy
    by_cases ha : p a = true
    · rw [updateFirst, if_pos ha] at hy
      rcases List.mem_cons.mp hy with h | h
      · exact Or.inr ⟨a, List.mem_cons_self a t, ha, h⟩
      · exact Or.inl (List.mem_cons_of_mem a h)
    · rw [updateFirst, if_neg ha] at hy
      rcases List.mem_cons.mp hy with h | h
      · exact Or.inl (h ▸ List.mem_cons_self a t)
      · rcases ih y h with h2 | ⟨x, hx, hpx, hyx⟩
        · exact Or.inl (List.mem_cons_of_mem a h2)
        · exact Or.inr ⟨x, List.mem_cons_of_mem a hx, hpx, hyx⟩

lemma find?_eq_none_of_key {α : Type} (f : α → String) (k : String) (l : List α)
    (h : ∀ x ∈ l, f x ≠ k) : l.find? (fun y => f y == k) = none := by
  rw [List.find?_eq_none]
  intro x hx
  simpa using h x hx

lemma mem_removeFirst_of_ne {α : Type} (f : α → String) (k : String) :
    ∀ l : List α, ∀ x ∈ l, f x ≠ k → x ∈ removeFirst (fun z => f z == k) l := by
  intro l
  induction l with
  | nil => intro x hx; exact absurd hx (List.not_mem_nil x)
  | cons a t ih =>
    intro x hx hxk
    by_cases ha : (f a == k) = true
    · rw [removeFirst, if_pos ha]
      rcases List.mem_cons.mp hx with h | h
      · exact absurd (h ▸ (by simpa using ha)) hxk
      · exact h
    · rw [removeFirst, if_neg ha]
      rcases List.mem_cons.mp hx with h | h
      · exact h ▸ List.mem_cons_self a _
      · exact List.mem_cons_of_mem a (ih x h hxk)

/-!
### The claims
-/

/-- C8: timestamp serialization round-trips.  For a document whose datetime
values are timezone-aware, constructor-valid, and sit under the keys
`parse_from_mongo` restores — as in every `Task.dict()` / `Board.dict()` the
code stores — applying `prepare_for_mongo` (datetime → ISO string) and then
`parse_from_mongo` (ISO string → datetime) returns the original document;
in particular every `created_at`/`updated_at`/`due_date` value, read back
from storage, equals the original instant. -/
theorem timestamp_serialization_roundtrip (doc : Doc)
    (h : ∀ kv ∈ doc, MongoRoundtripOK kv) :
    parse_from_mongo (prepare_for_mongo doc) = doc := by
  unfold parse_from_mongo prepare_for_mongo
  induction doc with
  | nil => rfl
  | cons kv rest ih =>
    rw [List.map_cons, List.map_cons,
      parseEntry_prepareEntry kv (h kv (List.mem_cons_self kv rest)),
      ih (fun kv2 hm => h kv2 (List.mem_cons_of_mem kv hm))]

/-- Witness for C8: a concrete task document with an aware `due_date`
round-trips unchanged. -/
theorem timestamp_serialization_roundtrip_witness :
    parse_from_mongo (prepare_for_mongo
      [("id", Value.str ("t1")), ("board_id", Value.str ("b1")),
       ("title", Value.str ("Fix bug")), ("description", Value.null),
       ("priority", Value.str ("high")), ("column", Value.str ("todo")),
       ("due_date", Value.dt ⟨2025, 3, 14, 9, 26, 53, 589793, some 0⟩),
       ("created_at", Value.dt ⟨2025, 1, 7, 13, 5, 9, 0, some 0⟩),
       ("updated_at", Value.dt ⟨2025, 1, 7, 13, 5, 9, 0, some (-330)⟩)]) =
      [("id", Value.str ("t1")), ("board_id", Value.str ("b1")),
       ("title", Value.str ("Fix bug")), ("description", Value.null),
       ("priority", Value.str ("high")), ("column", Value.str ("todo")),
       ("due_date", Value.dt ⟨2025, 3, 14, 9, 26, 53, 589793, some 0⟩),
       ("created_at", Value.dt ⟨2025, 1, 7, 13, 5, 9, 0, some 0⟩),
       ("updated_at", Value.dt ⟨2025, 1, 7, 13, 5, 9, 0, some (-330)⟩)] :=
  timestamp_serialization_roundtrip _ (by decide)

/-- C3: creating a task under a board id that matches no stored board fails
with NotFound (404); the handler returns before any insert, so no task
record is created and the store is unchanged (in this embedding an `error`
outcome carries no successor store). -/
theorem create_task_missing_board (db : DB) (bid : String) (raw : TaskCreateRaw)
    (nid : String) (now : Nat) (h : ∀ b ∈ db.boards, b.id ≠ bid) :
    create_task db bid raw nid now = .error (.notFound ("Board not found")) := by
  unfold create_task
  rw [find?_eq_none_of_key BoardRec.id bid db.boards h]

/-- Witness for C3 on an empty store. -/
theorem create_task_missing_board_witness :
    create_task ⟨[], []⟩ "b1" ⟨.val ("Fix bug"), .absent, .val .high, .absent⟩ "t1" 0 =
      .error (.notFound ("Board not found")) :=
  create_task_missing_board _ _ _ _ _ (by decide)

/-- C1: on a store with distinct board ids (every id is a fresh uuid), if a
board with the given id exists, `delete_board` succeeds, afterwards no task
with that `board_id` remains and `get_board` on that id answers NotFound
(404); if no board with that id exists, `delete_board` answers NotFound and
performs no write (the error outcome carries no successor store). -/
theorem delete_board_cascade (db : DB) (bid : String)
    (hnd : (db.boards.map BoardRec.id).Nodup) :
    (∀ b ∈ db.boards, b.id = bid →
      ∃ db', delete_board db bid = .ok db' ∧
        (∀ t ∈ db'.tasks, t.board_id ≠ bid) ∧
        get_board db' bid = .error (.notFound ("Board not found"))) ∧
    ((∀ b ∈ db.boards, b.id ≠ bid) →
      delete_board db bid = .error (.notFound ("Board not found"))) := by
  constructor
  · intro b hb hbid
    have hfind := find?_key_of_nodup BoardRec.id bid db.boards hnd b hb hbid
    refine ⟨⟨removeFirst (fun x => x.id == bid) db.boards,
             db.tasks.filter (fun t => !(t.board_id == bid))⟩, ?_, ?_, ?_⟩
    · unfold delete_board
      rw [hfind]
    · intro t ht
      have := (List.mem_filter.mp ht).2
      simpa using this
    · unfold get_board
      rw [find?_eq_none_of_key BoardRec.id bid _
        (removeFirst_key_ne BoardRec.id bid db.boards hnd)]
  · intro h
    unfold delete_board
    rw [find?_eq_none_of_key BoardRec.id bid db.boards h]

/-- Witness for C1: a concrete store with one board and two tasks (one on the
board, one elsewhere), and a miss on an unknown id. -/
theorem delete_board_cascade_witness :
    (∃ db', delete_board
        ⟨[⟨"b1", "Sprint 1", some (""), 0, 0⟩],
         [⟨"t1", "b1", "Fix bug", some (""), .high, .todo, none, 0, 0⟩,
          ⟨"t2", "b2", "Other", some (""), .low, .done, none, 0, 0⟩]⟩ "b1" = .ok db' ∧
      (∀ t ∈ db'.tasks, t.board_id ≠ "b1") ∧
      get_board db' ("b1") = .error (.notFound ("Board not found"))) ∧
    delete_board ⟨[⟨"b1", "Sprint 1", some (""), 0, 0⟩], []⟩ "nope" =
      .error (.notFound ("Board not found")) :=
  ⟨(delete_board_cascade _ ("b1") (by decide)).1 ⟨"b1", "Sprint 1", some (""), 0, 0⟩
      (by decide) rfl,
   (delete_board_cascade _ ("nope") (by decide)).2 (by decide)⟩

/-- C2: listing a board's tasks returns exactly the stored tasks whose
`board_id` matches, restricted by exact equality on `priority` and `column`
when supplied; supplying both filters yields exactly the intersection of the
two singly-filtered results; a missing board answers NotFound (404). -/
theorem list_tasks_filtering (db : DB) (bid : String)
    (pr : Option TaskPriority) (col : Option TaskColumn) :
    ((∃ b ∈ db.boards, b.id = bid) →
      ∃ res resP resC,
        get_board_tasks db bid pr col = .ok res ∧
        get_board_tasks db bid pr none = .ok resP ∧
        get_board_tasks db bid none col = .ok resC ∧
        (∀ t, t ∈ res ↔ t ∈ db.tasks ∧ t.board_id = bid ∧
          (∀ p, pr = some p → t.priority = p) ∧
          (∀ c, col = some c → t.column = c)) ∧
        (∀ t, t ∈ res ↔ t ∈ resP ∧ t ∈ resC)) ∧
    ((∀ b ∈ db.boards, b.id ≠ bid) →
      get_board_tasks db bid pr col = .error (.notFound ("Board not found"))) := by
  constructor
  · rintro ⟨b, hb, hbid⟩
    obtain ⟨b0, hb0⟩ : ∃ b0, db.boards.find? (fun x => x.id == bid) = some b0 := by
      cases hfind : db.boards.find? (fun x => x.id == bid) with
      | some b0 => exact ⟨b0, rfl⟩
      | none =>
        rw [List.find?_eq_none] at hfind
        exact absurd (by simp [hbid]) (hfind b hb)
    have mk : ∀ (p : Option TaskPriority) (c : Option TaskColumn),
        get_board_tasks db bid p c = .ok (db.tasks.filter (fun t =>
          t.board_id == bid
          && (match p with | none => true | some p => t.priority == p)
          && (match c with | none => true | some c => t.column == c))) := by
      intro p c
      unfold get_board_tasks
      rw [hb0]
    refine ⟨_, _, _, mk pr col, mk pr none, mk none col, ?_, ?_⟩
    · intro t
      rw [List.mem_filter]
      cases pr <;> cases col <;>
        simp [Bool.and_eq_true, and_assoc]
    · intro t
      rw [List.mem_filter, List.mem_filter, List.mem_filter]
      cases pr <;> cases col <;> simp [Bool.and_eq_true, and_assoc] <;> tauto
  · intro h
    unfold get_board_tasks
    rw [find?_eq_none_of_key BoardRec.id bid db.boards h]

/-- Witness for C2: one board, three tasks; filtering on priority=high plus
column=todo, and a miss on an unknown board id. -/
theorem list_tasks_filtering_witness :
    (∃ res resP resC,
      get_board_tasks
        ⟨[⟨"b1", "Sprint 1", some (""), 0, 0⟩],
         [⟨"t1", "b1", "A", some (""), .high, .todo, none, 0, 0⟩,
          ⟨"t2", "b1", "B", some (""), .high, .done, none, 0, 0⟩,
          ⟨"t3", "b1", "C", some (""), .low, .todo, none, 0, 0⟩]⟩
        "b1" (some .high) (some .todo) = .ok res ∧
      get_board_tasks
        ⟨[⟨"b1", "Sprint 1", some (""), 0, 0⟩],
         [⟨"t1", "b1", "A", some (""), .high, .todo, none, 0, 0⟩,
          ⟨"t2", "b1", "B", some (""), .high, .done, none, 0, 0⟩,
          ⟨"t3", "b1", "C", some (""), .low, .todo, none, 0, 0⟩]⟩
        "b1" (some .high) none = .ok resP ∧
      get_board_tasks
        ⟨[⟨"b1", "Sprint 1", some (""), 0, 0⟩],
         [⟨"t1", "b1", "A", some (""), .high, .todo, none, 0, 0⟩,
          ⟨"t2", "b1", "B", some (""), .high, .done, none, 0, 0⟩,
          ⟨"t3", "b1", "C", some (""), .low, .todo, none, 0, 0⟩]⟩
        "b1" none (some .todo) = .ok resC ∧
      (∀ t, t ∈ res ↔ t ∈
          [⟨"t1", "b1", "A", some (""), .high, .todo, none, 0, 0⟩,
           ⟨"t2", "b1", "B", some (""), .high, .done, none, 0, 0⟩,
           ⟨"t3", "b1", "C", some (""), .low, .todo, none, 0, 0⟩] ∧
        t.board_id = "b1" ∧
        (∀ p, (some TaskPriority.high : Option TaskPriority) = some p → t.priority = p) ∧
        (∀ c, (some TaskColumn.todo : Option TaskColumn) = some c → t.column = c)) ∧
      (∀ t, t ∈ res ↔ t ∈ resP ∧ t ∈ resC)) ∧
    get_board_tasks ⟨[⟨"b1", "Sprint 1", some (""), 0, 0⟩], []⟩ "nope" none none =
      .error (.notFound ("Board not found")) :=
  ⟨(list_tasks_filtering _ ("b1") (some .high) (some .todo)).1
      ⟨⟨"b1", "Sprint 1", some (""), 0, 0⟩, by decide, rfl⟩,
   (list_tasks_filtering _ ("nope") none none).2 (by decide)⟩

/-- C5: on a store with distinct task ids, `move_task` on an existing task
succeeds for every target column — there is no transition-legality check, so
done → todo and moving onto the current column succeed alike — and returns
the task with `column` set to the target, `updated_at` refreshed to the
clock reading, and every other field untouched (visible in the record
update); it fails, with NotFound, exactly when no task with the id exists. -/
theorem move_task_unconditional (db : DB) (tid : String) (col : TaskColumn)
    (now : Nat) (hnd : (db.tasks.map TaskRec.id).Nodup) :
    (∀ t ∈ db.tasks, t.id = tid →
      move_task db tid col now =
        .ok ({ t with column := col, updated_at := now },
             { db with tasks :=
                updateFirst (fun z => z.id == tid) (taskApplyMove col now) db.tasks })) ∧
    ((∀ t ∈ db.tasks, t.id ≠ tid) →
      move_task db tid col now = .error (.notFound ("Task not found"))) := by
  constructor
  · intro t ht htid
    have hfind := find?_key_of_nodup TaskRec.id tid db.tasks hnd t ht htid
    have hupd := find?_updateFirst TaskRec.id (taskApplyMove col now) tid
      (fun z => rfl) db.tasks hnd t ht htid
    simp only [move_task, hfind, hupd]
    rfl
  · intro h
    unfold move_task
    rw [find?_eq_none_of_key TaskRec.id tid db.tasks h]

/-- Witness for C5: moving a done task back to todo succeeds; an unknown id
is NotFound. -/
theorem move_task_unconditional_witness :
    move_task ⟨[], [⟨"t1", "b1", "Fix bug", some (""), .high, .done, none, 0, 0⟩]⟩
        "t1" .todo 7 =
      .ok (⟨"t1", "b1", "Fix bug", some (""), .high, .todo, none, 0, 7⟩,
           ⟨[], [⟨"t1", "b1", "Fix bug", some (""), .high, .todo, none, 0, 7⟩]⟩) ∧
    move_task ⟨[], []⟩ "t9" .done 7 = .error (.notFound ("Task not found")) :=
  ⟨(move_task_unconditional _ ("t1") .todo 7 (by decide)).1
      ⟨"t1", "b1", "Fix bug", some (""), .high, .done, none, 0, 0⟩ (by decide) rfl,
   (move_task_unconditional _ ("t9") .done 7 (by decide)).2 (by decide)⟩

/-- C6: on a store with distinct board ids, updating an existing board
applies exactly the supplied fields: the updated board is
`boardApplySet` of the parsed body, so a body without `name` leaves `name`
unchanged, a body without `description` leaves `description` unchanged, `id`
and `created_at` are never written, and `updated_at` is always refreshed to
the clock reading — which is ≥ the previous `updated_at` whenever the clock
has not gone backwards since the last write. -/
theorem update_board_partial_fields (db : DB) (bid : String)
    (raw : BoardUpdateRaw) (now : Nat)
    (hnd : (db.boards.map BoardRec.id).Nodup) (b : BoardRec) (hb : b ∈ db.boards)
    (hbid : b.id = bid) :
    ∃ db', update_board db bid raw now =
        .ok (boardApplySet (BoardUpdate.parse raw) now b, db') ∧
      ((BoardUpdate.parse raw).name = none →
        (boardApplySet (BoardUpdate.parse raw) now b).name = b.name) ∧
      ((BoardUpdate.parse raw).description = none →
        (boardApplySet (BoardUpdate.parse raw) now b).description = b.description) ∧
      (boardApplySet (BoardUpdate.parse raw) now b).id = b.id ∧
      (boardApplySet (BoardUpdate.parse raw) now b).created_at = b.created_at ∧
      (boardApplySet (BoardUpdate.parse raw) now b).updated_at = now ∧
      (b.updated_at ≤ now →
        b.updated_at ≤ (boardApplySet (BoardUpdate.parse raw) now b).updated_at) := by
  have hfind := find?_key_of_nodup BoardRec.id bid db.boards hnd b hb hbid
  have hupd := find?_updateFirst BoardRec.id
    (boardApplySet (BoardUpdate.parse raw) now) bid (fun z => rfl)
    db.boards hnd b hb hbid
  refine ⟨⟨updateFirst (fun z => z.id == bid)
      (boardApplySet (BoardUpdate.parse raw) now) db.boards, db.tasks⟩,
    ?_, ?_, ?_, rfl, rfl, rfl, fun h => h⟩
  · simp only [update_board, hfind, hupd]
  · intro h
    simp [boardApplySet, h]
  · intro h
    simp [boardApplySet, h]

/-- Witness for C6: a description-only update leaves the name unchanged and
advances `updated_at` from 3 to 9. -/
theorem update_board_partial_fields_witness :
    ∃ db', update_board ⟨[⟨"b1", "Sprint 1", some (""), 2, 3⟩], []⟩ "b1"
        ⟨.absent, .val ("new words")⟩ 9 =
      .ok (boardApplySet (BoardUpdate.parse ⟨.absent, .val ("new words")⟩) 9
            ⟨"b1", "Sprint 1", some (""), 2, 3⟩, db') ∧
      ((BoardUpdate.parse (⟨.absent, .val ("new words")⟩ : BoardUpdateRaw)).name = none →
        (boardApplySet (BoardUpdate.parse ⟨.absent, .val ("new words")⟩) 9
          ⟨"b1", "Sprint 1", some (""), 2, 3⟩).name = "Sprint 1") ∧
      ((BoardUpdate.parse (⟨.absent, .val ("new words")⟩ : BoardUpdateRaw)).description = none →
        (boardApplySet (BoardUpdate.parse ⟨.absent, .val ("new words")⟩) 9
          ⟨"b1", "Sprint 1", some (""), 2, 3⟩).description = some ("")) ∧
      (boardApplySet (BoardUpdate.parse ⟨.absent, .val ("new words")⟩) 9
        ⟨"b1", "Sprint 1", some (""), 2, 3⟩).id = "b1" ∧
      (boardApplySet (BoardUpdate.parse ⟨.absent, .val ("new words")⟩) 9
        ⟨"b1", "Sprint 1", some (""), 2, 3⟩).created_at = 2 ∧
      (boardApplySet (BoardUpdate.parse ⟨.absent, .val ("new words")⟩) 9
        ⟨"b1", "Sprint 1", some (""), 2, 3⟩).updated_at = 9 ∧
      (3 ≤ 9 →
        3 ≤ (boardApplySet (BoardUpdate.parse ⟨.absent, .val ("new words")⟩) 9
          ⟨"b1", "Sprint 1", some (""), 2, 3⟩).updated_at) :=
  update_board_partial_fields _ ("b1") ⟨.absent, .val ("new words")⟩ 9 (by decide)
    ⟨"b1", "Sprint 1", some (""), 2, 3⟩ (by decide) rfl

/-- C7: a task's `id` and `board_id` are immutable under `update_task` and
`move_task`: the request models carry no such fields (see `TaskUpdateRaw`)
and the `$set` documents never write them, so whenever either operation
succeeds the stored tasks keep their `(id, board_id)` pairs (position for
position) and the boards collection is untouched. -/
theorem task_identity_immutable (db : DB) (tid : String) (raw : TaskUpdateRaw)
    (col : TaskColumn) (now : Nat) :
    (∀ r db', update_task db tid raw now = .ok (r, db') →
      db'.tasks.map (fun t => (t.id, t.board_id)) =
        db.tasks.map (fun t => (t.id, t.board_id)) ∧ db'.boards = db.boards) ∧
    (∀ r db', move_task db tid col now = .ok (r, db') →
      db'.tasks.map (fun t => (t.id, t.board_id)) =
        db.tasks.map (fun t => (t.id, t.board_id)) ∧ db'.boards = db.boards) := by
  constructor
  · intro r db' h
    unfold update_task at h
    split at h
    · exact absurd h (by simp)
    · dsimp only at h
      split at h
      · exact absurd h (by simp)
      · simp only [Except.ok.injEq, Prod.mk.injEq] at h
        obtain ⟨-, h2⟩ := h
        subst h2
        exact ⟨updateFirst_map_key (fun t => t.id == tid)
          (taskApplySet (TaskUpdate.parse raw) now)
          (fun t => (t.id, t.board_id)) (fun z => rfl) db.tasks, rfl⟩
  · intro r db' h
    unfold move_task at h
    split at h
    · exact absurd h (by simp)
    · dsimp only at h
      split at h
      · exact absurd h (by simp)
      · simp only [Except.ok.injEq, Prod.mk.injEq] at h
        obtain ⟨-, h2⟩ := h
        subst h2
        exact ⟨updateFirst_map_key (fun t => t.id == tid)
          (taskApplyMove col now)
          (fun t => (t.id, t.board_id)) (fun z => rfl) db.tasks, rfl⟩

/-- Witness for C7: a concrete update that changes title, column and
due_date, and a concrete move, both preserving `(id, board_id)`. -/
theorem task_identity_immutable_witness :
    ((⟨[], [⟨"t1", "b1", "New title", some (""), .high, .done, some 42, 0, 9⟩]⟩ :
        DB).tasks.map (fun t => (t.id, t.board_id)) =
      (⟨[], [⟨"t1", "b1", "Fix bug", some (""), .high, .todo, none, 0, 0⟩]⟩ :
        DB).tasks.map (fun t => (t.id, t.board_id)) ∧
      (⟨[], [⟨"t1", "b1", "New title", some (""), .high, .done, some 42, 0, 9⟩]⟩ :
        DB).boards =
      (⟨[], [⟨"t1", "b1", "Fix bug", some (""), .high, .todo, none, 0, 0⟩]⟩ :
        DB).boards) ∧
    ((⟨[], [⟨"t1", "b1", "Fix bug", some (""), .high, .in_progress, none, 0, 9⟩]⟩ :
        DB).tasks.map (fun t => (t.id, t.board_id)) =
      (⟨[], [⟨"t1", "b1", "Fix bug", some (""), .high, .todo, none, 0, 0⟩]⟩ :
        DB).tasks.map (fun t => (t.id, t.board_id)) ∧
      (⟨[], [⟨"t1", "b1", "Fix bug", some (""), .high, .in_progress, none, 0, 9⟩]⟩ :
        DB).boards =
      (⟨[], [⟨"t1", "b1", "Fix bug", some (""), .high, .todo, none, 0, 0⟩]⟩ :
        DB).boards) :=
  ⟨(task_identity_immutable
      ⟨[], [⟨"t1", "b1", "Fix bug", some (""), .high, .todo, none, 0, 0⟩]⟩
      "t1" ⟨.val ("New title"), .absent, .absent, .val .done, .val 42⟩ .done 9).1
      ⟨"t1", "b1", "New title", some (""), .high, .done, some 42, 0, 9⟩
      ⟨[], [⟨"t1", "b1", "New title", some (""), .high, .done, some 42, 0, 9⟩]⟩
      rfl,
   (task_identity_immutable
      ⟨[], [⟨"t1", "b1", "Fix bug", some (""), .high, .todo, none, 0, 0⟩]⟩
      "t1" ⟨.val ("New title"), .absent, .absent, .val .done, .val 42⟩ .in_progress 9).2
      ⟨"t1", "b1", "Fix bug", some (""), .high, .in_progress, none, 0, 9⟩
      ⟨[], [⟨"t1", "b1", "Fix bug", some (""), .high, .in_progress, none, 0, 9⟩]⟩
      rfl⟩

/-- C9, counterexample to the claim as stated.  The claim says a state
reached by stopping `delete_board` between its two deletion steps "may have
orphan Tasks but never a Board that has lost its Tasks without itself being
deleted".  The code deletes the tasks first (line 155) and the board second
(line 157), so the intermediate state is exactly a board that has lost its
tasks while still present: with one board `b1` and one task on it, the
middle state of the trace still contains `b1` while no task with
`board_id = "b1"` remains. -/
theorem delete_board_midstate_counterexample :
    ∃ s ∈ delete_board_trace
        ⟨[⟨"b1", "Sprint 1", some (""), 0, 0⟩],
         [⟨"t1", "b1", "Fix bug", some (""), .medium, .todo, none, 0, 0⟩]⟩ "b1",
      (∃ b ∈ s.boards, b.id = "b1") ∧ ∀ t ∈ s.tasks, t.board_id ≠ "b1" := by
  refine ⟨⟨[⟨"b1", "Sprint 1", some (""), 0, 0⟩], []⟩, ?_, ?_⟩ <;> decide

/-- C9 (amended): in `delete_board` the task deletion executes strictly
before the board deletion, so the trace of store states is exactly
initial / tasks-gone / tasks-and-board-gone; between the two steps the board
may be present with its tasks already deleted, and no state of the trace
contains a task that `delete_board` newly orphaned: every task still present
whose board existed initially still has its board in that state. -/
theorem delete_board_order (db : DB) (bid : String)
    (hnd : (db.boards.map BoardRec.id).Nodup) (b : BoardRec) (hb : b ∈ db.boards)
    (hbid : b.id = bid) :
    delete_board_trace db bid =
      [db,
       { db with tasks := db.tasks.filter (fun t => !(t.board_id == bid)) },
       { boards := removeFirst (fun x => x.id == bid) db.boards,
         tasks := db.tasks.filter (fun t => !(t.board_id == bid)) }] ∧
    delete_board db bid =
      .ok { boards := removeFirst (fun x => x.id == bid) db.boards,
            tasks := db.tasks.filter (fun t => !(t.board_id == bid)) } ∧
    (∃ b' ∈ ({ db with
        tasks := db.tasks.filter (fun t => !(t.board_id == bid)) } : DB).boards,
      b'.id = bid ∧
      ∀ t ∈ ({ db with
          tasks := db.tasks.filter (fun t => !(t.board_id == bid)) } : DB).tasks,
        t.board_id ≠ bid) ∧
    (∀ s ∈ delete_board_trace db bid, ∀ t ∈ s.tasks,
      (∃ b' ∈ db.boards, b'.id = t.board_id) →
      ∃ b' ∈ s.boards, b'.id = t.board_id) := by
  have hfind := find?_key_of_nodup BoardRec.id bid db.boards hnd b hb hbid
  have htrace : delete_board_trace db bid =
      [db,
       { db with tasks := db.tasks.filter (fun t => !(t.board_id == bid)) },
       { boards := removeFirst (fun x => x.id == bid) db.boards,
         tasks := db.tasks.filter (fun t => !(t.board_id == bid)) }] := by
    unfold delete_board_trace
    rw [hfind]
  refine ⟨htrace, ?_, ⟨b, hb, hbid, ?_⟩, ?_⟩
  · unfold delete_board
    rw [hfind]
  · intro t ht
    have := (List.mem_filter.mp ht).2
    simpa using this
  · intro s hs t ht horig
    rw [htrace] at hs
    simp only [List.mem_cons, List.not_mem_nil, or_false] at hs
    rcases hs with rfl | rfl | rfl
    · exact horig
    · exact horig
    · obtain ⟨b', hb', hbid'⟩ := horig
      have htne : t.board_id ≠ bid := by
        have := (List.mem_filter.mp ht).2
        simpa using this
      have hb'ne : b'.id ≠ bid := hbid' ▸ htne
      exact ⟨b', mem_removeFirst_of_ne BoardRec.id bid db.boards b' hb' hb'ne, hbid'⟩

/-- Witness for C9 (amended) at the same one-board, one-task store. -/
theorem delete_board_order_witness :
    delete_board_trace
        ⟨[⟨"b1", "Sprint 1", some (""), 0, 0⟩],
         [⟨"t1", "b1", "Fix bug", some (""), .medium, .todo, none, 0, 0⟩]⟩ "b1" =
      [⟨[⟨"b1", "Sprint 1", some (""), 0, 0⟩],
        [⟨"t1", "b1", "Fix bug", some (""), .medium, .todo, none, 0, 0⟩]⟩,
       ⟨[⟨"b1", "Sprint 1", some (""), 0, 0⟩], []⟩,
       ⟨[], []⟩] ∧
    delete_board
        ⟨[⟨"b1", "Sprint 1", some (""), 0, 0⟩],
         [⟨"t1", "b1", "Fix bug", some (""), .medium, .todo, none, 0, 0⟩]⟩ "b1" =
      .ok ⟨[], []⟩ := by
  have h := delete_board_order
    ⟨[⟨"b1", "Sprint 1", some (""), 0, 0⟩],
     [⟨"t1", "b1", "Fix bug", some (""), .medium, .todo, none, 0, 0⟩]⟩ "b1"
    (by decide) ⟨"b1", "Sprint 1", some (""), 0, 0⟩ (by decide) rfl
  exact ⟨h.1, h.2.1⟩

/-- C10: in both partial-update handlers the dict comprehension
`{k: v for k, v in ....dict().items() if v is not None}` cannot tell an
explicitly-`null` body field from an omitted one — pydantic parses both to
`None` (first two conjuncts: the parsed update depends only on `optNone`,
which collapses `null` and `absent`; next two: the handlers depend only on
the parsed update) — and consequently a task whose `due_date` is set can
never have it cleared back to null by `update_task` (last conjunct). -/
theorem null_field_equals_absent_field (db : DB) (bid tid : String)
    (now : Nat) :
    (∀ α : Type, (FieldVal.null : FieldVal α).optNone = FieldVal.absent.optNone) ∧
    (∀ rawB rawB' : BoardUpdateRaw, BoardUpdate.parse rawB = BoardUpdate.parse rawB' →
      update_board db bid rawB now = update_board db bid rawB' now) ∧
    (∀ rawT rawT' : TaskUpdateRaw, TaskUpdate.parse rawT = TaskUpdate.parse rawT' →
      update_task db tid rawT now = update_task db tid rawT' now) ∧
    (∀ raw : TaskUpdateRaw, ∀ t ∈ db.tasks,
      (db.tasks.map TaskRec.id).Nodup → t.id = tid → t.due_date.isSome = true →
      ∀ r db', update_task db tid raw now = .ok (r, db') →
        r.due_date.isSome = true ∧
        ∀ t' ∈ db'.tasks, t'.id = tid → t'.due_date.isSome = true) := by
  refine ⟨fun α => rfl, ?_, ?_, ?_⟩
  · intro rawB rawB' h
    unfold update_board
    rw [h]
  · intro rawT rawT' h
    unfold update_task
    rw [h]
  · intro raw t ht hnd htid hsome r db' h
    have hfind := find?_key_of_nodup TaskRec.id tid db.tasks hnd t ht htid
    have hupd := find?_updateFirst TaskRec.id
      (taskApplySet (TaskUpdate.parse raw) now) tid (fun z => rfl)
      db.tasks hnd t ht htid
    simp only [update_task, hfind, hupd, Except.ok.injEq, Prod.mk.injEq] at h
    obtain ⟨hr, hdb⟩ := h
    have happ : ∀ x : TaskRec, x.due_date.isSome = true →
        (taskApplySet (TaskUpdate.parse raw) now x).due_date.isSome = true := by
      intro x hx
      unfold taskApplySet
      cases (TaskUpdate.parse raw).due_date <;> simp [hx]
    constructor
    · exact hr ▸ happ t hsome
    · intro t' ht' htid'
      rw [← hdb] at ht'
      rcases mem_updateFirst (fun z => z.id == tid)
          (taskApplySet (TaskUpdate.parse raw) now) db.tasks t' ht' with hmem | ⟨x, hx, hpx, hex⟩
      · have : t' = t := key_unique_of_nodup TaskRec.id db.tasks hnd t' hmem t ht
          (htid'.trans htid.symm)
        exact this ▸ hsome
      · have hxid : x.id = tid := by simpa using hpx
        have : x = t := key_unique_of_nodup TaskRec.id db.tasks hnd x hx t ht
          (hxid.trans htid.symm)
        subst this
        exact hex ▸ happ x hsome

/-- Witness for C10: a null `due_date` behaves exactly like an omitted one,
and a set `due_date` survives an update that does not supply it. -/
theorem null_field_equals_absent_field_witness :
    (update_task ⟨[], [⟨"t1", "b1", "Fix bug", some (""), .high, .todo, some 42, 0, 0⟩]⟩
        "t1" ⟨.absent, .absent, .absent, .absent, .null⟩ 9 =
      update_task ⟨[], [⟨"t1", "b1", "Fix bug", some (""), .high, .todo, some 42, 0, 0⟩]⟩
        "t1" ⟨.absent, .absent, .absent, .absent, .absent⟩ 9) ∧
    ((⟨"t1", "b1", "Fix bug", some (""), .high, .todo, some 42, 0, 9⟩ :
        TaskRec).due_date.isSome = true ∧
      ∀ t' ∈ (⟨[], [⟨"t1", "b1", "Fix bug", some (""), .high, .todo, some 42, 0, 9⟩]⟩ :
          DB).tasks, t'.id = "t1" → t'.due_date.isSome = true) :=
  ⟨(null_field_equals_absent_field
      ⟨[], [⟨"t1", "b1", "Fix bug", some (""), .high, .todo, some 42, 0, 0⟩]⟩ "b1" "t1" 9).2.2.1
      ⟨.absent, .absent, .absent, .absent, .null⟩
      ⟨.absent, .absent, .absent, .absent, .absent⟩ rfl,
   (null_field_equals_absent_field
      ⟨[], [⟨"t1", "b1", "Fix bug", some (""), .high, .todo, some 42, 0, 0⟩]⟩ "b1" "t1" 9).2.2.2
      ⟨.absent, .absent, .absent, .absent, .null⟩
      ⟨"t1", "b1", "Fix bug", some (""), .high, .todo, some 42, 0, 0⟩ (by decide)
      (by decide) rfl rfl
      ⟨"t1", "b1", "Fix bug", some (""), .high, .todo, some 42, 0, 9⟩
      ⟨[], [⟨"t1", "b1", "Fix bug", some (""), .high, .todo, some 42, 0, 9⟩]⟩ rfl⟩

/-- C4, counterexample to the claim as stated.  The claim says create-board
fails with ValidationError when `name` is missing *or empty*.  pydantic's
`name: str` accepts the empty string, so creating a board with `name = ""`
succeeds and stores a board whose name is the empty string. -/
theorem board_empty_name_counterexample :
    create_board ⟨[], []⟩ ⟨.val (""), .absent⟩ "b1" 0 =
      .ok (⟨"b1", "", some (""), 0, 0⟩, ⟨[⟨"b1", "", some (""), 0, 0⟩], []⟩) := rfl

/-- C4 (amended): create-board fails with ValidationError exactly when
`name` is not supplied as a string (absent from the body, or an explicit
null); when any string is supplied — the empty string included — creation
succeeds and the stored board carries exactly that name. -/
theorem create_board_name_required (db : DB) (raw : BoardCreateRaw)
    (nid : String) (now : Nat) :
    ((raw.name = .absent ∨ raw.name = .null) →
      create_board db raw nid now = .error .validationError) ∧
    (∀ s, raw.name = .val s →
      ∃ b db', create_board db raw nid now = .ok (b, db') ∧ b.name = s ∧
        db'.boards = db.boards ++ [b] ∧ db'.tasks = db.tasks) := by
  constructor
  · rintro (h | h) <;>
      simp [create_board, BoardCreate.parse, h]
  · intro s h
    refine ⟨⟨nid, s, (raw.description.optDefault ("")), now, now⟩,
      ⟨db.boards ++ [⟨nid, s, (raw.description.optDefault ("")), now, now⟩], db.tasks⟩,
      ?_, rfl, rfl, rfl⟩
    simp [create_board, BoardCreate.parse, h]

/-- Witness for C4 (amended): a missing name is rejected; an empty name is
accepted and stored. -/
theorem create_board_name_required_witness :
    create_board ⟨[], []⟩ ⟨.absent, .val ("words")⟩ "b1" 0 = .error .validationError ∧
    ∃ b db', create_board ⟨[], []⟩ ⟨.val (""), .absent⟩ "b1" 0 = .ok (b, db') ∧
      b.name = "" ∧ db'.boards = [] ++ [b] ∧ db'.tasks = [] :=
  ⟨(create_board_name_required ⟨[], []⟩ ⟨.absent, .val ("words")⟩ "b1" 0).1 (Or.inl rfl),
   (create_board_name_required ⟨[], []⟩ ⟨.val (""), .absent⟩ "b1" 0).2 ("") rfl⟩

end Kanban
